import Mathlib

/-!
Verification development for the CPF/CNPJ generator (`src/src/App.tsx`).

The source is a React component whose core logic is three pure helpers:
`calculateCpfVerifier`, `calculateCnpjVerifier`, and the two generation
handlers `handleGenerateCpf` / `handleGenerateCnpj`.  We embed digits as
`List Nat` (JS numbers here are always small non-negative integers, so
`Nat` arithmetic with `%` is exact) and strings as `List Char`.

An indexed JS `reduce` of `acc + digit * weights[i]` reads `weights[i]`,
which is `undefined` (poisoning the sum to `NaN`) once `i` runs past the
end of the weight array.  We model that as an `Option Nat` weighted sum:
`none` exactly when some weight lookup is out of bounds.

Randomness (`randomDigits`) is an external digit source; the generation
pipeline is embedded as a function of the base digits it returns, and
claims quantify over all digit sequences the source can produce
(each element in `[0,9]`, of the requested length).
-/

/-- Weighted sum of `digits` against `weights`, pairing position `i` of the
digits with `weights[i]`, as the JS indexed `reduce` does.  Returns `none`
when the digits outrun the weight table (the JS computation would read
`undefined` and produce `NaN`). -/
def weightedSum : List Nat → List Nat → Nat → Option Nat
  | [], _, acc => some acc
  | _ :: _, [], _ => none
  | d :: ds, w :: ws, acc => weightedSum ds ws (acc + d * w)

/-- The CPF weight array built in `calculateCpfVerifier`:
`Array.from({length: L}, (_, i) => L + 1 - i)`. -/
def cpfWeights (L : Nat) : List Nat :=
  (List.range L).map (fun i => L + 1 - i)

/-- Embeds `calculateCpfVerifier` (App.tsx lines 11-19): weights are
`digits.length + 1 - i`, `sum` the indexed reduce, `remainder = (sum*10) % 11`,
and the result is `0` when the remainder is `10`. -/
def calculateCpfVerifier (digits : List Nat) : Option Nat :=
  (weightedSum digits (cpfWeights digits.length) 0).map (fun sum =>
    let remainder := sum * 10 % 11
    if remainder = 10 then 0 else remainder)

/-- The fixed CNPJ base weight table from `calculateCnpjVerifier`. -/
def cnpjBaseWeights : List Nat := [5, 4, 3, 2, 9, 8, 7, 6, 5, 4, 3, 2]

/-- The weight array used by `calculateCnpjVerifier` for an input of length
`L`: the base table, with `6` pushed on the front (`weights.unshift(6)`)
exactly when `L = 13`.  The JS array is a fresh local per call, so the
mutation never escapes the call. -/
def cnpjWeights (L : Nat) : List Nat :=
  if L = 13 then 6 :: cnpjBaseWeights else cnpjBaseWeights

/-- Embeds `calculateCnpjVerifier` (App.tsx lines 22-30): fixed weight table
(with `6` prepended for length 13), `remainder = sum % 11`, result `0` when
`remainder < 2`, else `11 - remainder`. -/
def calculateCnpjVerifier (digits : List Nat) : Option Nat :=
  (weightedSum digits (cnpjWeights digits.length) 0).map (fun sum =>
    let remainder := sum % 11
    if remainder < 2 then 0 else 11 - remainder)

/-- `n.toString()` for a single decimal digit, i.e. the character the JS
`join("")` emits for a digit in `[0,9]`. -/
def digitToChar (d : Nat) : Char := Char.ofNat (48 + d)

/-- Decodes a decimal digit character back to its value (used by the claims
that re-check verifier digits of the formatted output). -/
def charToDigit (c : Char) : Nat := c.toNat - 48

/-- Strips the punctuation from a formatted document, keeping the digits. -/
def stripPunct (s : List Char) : List Char := s.filter (fun c => c.isDigit)

/-- The CPF formatting step
`fullCpf.replace(/(\d\x7b3\x7d)(\d\x7b3\x7d)(\d\x7b3\x7d)(\d\x7b2\x7d)/, "$1.$2.$3-$4")`.
On the 11-digit strings the pipeline produces, the four groups are the
character slices `[0,3)`, `[3,6)`, `[6,9)`, `[9,11)` and everything past the
match is kept, which is exactly this slicing. -/
def formatCpf (s : List Char) : List Char :=
  s.take 3 ++ '.' :: ((s.drop 3).take 3 ++ '.' :: ((s.drop 6).take 3 ++ '-' :: s.drop 9))

/-- The CNPJ formatting step
`fullCnpj.replace(/(\d\x7b2\x7d)(\d\x7b3\x7d)(\d\x7b3\x7d)(\d\x7b4\x7d)(\d\x7b2\x7d)/, "$1.$2.$3/$4-$5")`
as positional slicing of the 14-digit string. -/
def formatCnpj (s : List Char) : List Char :=
  s.take 2 ++ '.' :: ((s.drop 2).take 3 ++ '.' :: ((s.drop 5).take 3 ++
    '/' :: ((s.drop 8).take 4 ++ '-' :: s.drop 12)))

/-- Embeds `handleGenerateCpf` (App.tsx lines 46-60) as a function of the
base digits drawn from the digit source: first verifier from the base,
second from base + first verifier, join and format.  `none` would signal a
`NaN`-poisoned verifier, which the proofs show never happens. -/
def handleGenerateCpf (base : List Nat) : Option (List Char) :=
  (calculateCpfVerifier base).bind (fun firstVerifier =>
    (calculateCpfVerifier (base ++ [firstVerifier])).map (fun secondVerifier =>
      formatCpf ((base ++ [firstVerifier, secondVerifier]).map digitToChar)))

/-- Embeds `handleGenerateCnpj` (App.tsx lines 65-82) as a function of the
12 base digits. -/
def handleGenerateCnpj (base : List Nat) : Option (List Char) :=
  (calculateCnpjVerifier base).bind (fun firstVerifier =>
    (calculateCnpjVerifier (base ++ [firstVerifier])).map (fun secondVerifier =>
      formatCnpj ((base ++ [firstVerifier, secondVerifier]).map digitToChar)))

-- Spec-side definitions (for the refinement claims C1, C2, C8), written
-- from the spec's words, to be compared with the code embeddings above.

/-- Spec rendering of the CPF rule (spec.md section 4.2): weight position
`i` by `L + 1 - i`, `sum` the weighted sum, `remainder = (sum * 10) mod 11`,
result `0` if the remainder is `10`, else the remainder. -/
def cpfVerifierSpec (d : List Nat) : Nat :=
  if (∑ i in Finset.range d.length, d.getD i 0 * (d.length + 1 - i)) * 10 % 11 = 10 then 0
  else (∑ i in Finset.range d.length, d.getD i 0 * (d.length + 1 - i)) * 10 % 11

/-- Spec rendering of the CNPJ weight table (spec.md section 4.2): the fixed
base table, with `6` prepended for the extra leading digit when the input
length is 13. -/
def cnpjWeightsSpec (L : Nat) : List Nat :=
  if L = 13 then 6 :: [5, 4, 3, 2, 9, 8, 7, 6, 5, 4, 3, 2]
  else [5, 4, 3, 2, 9, 8, 7, 6, 5, 4, 3, 2]

/-- Spec rendering of the CNPJ rule: `sum = Σ digit[i] * weight[i]` over the
aligned input, `remainder = sum mod 11`, result `0` if `remainder < 2`, else
`11 - remainder`. -/
def cnpjVerifierSpec (d : List Nat) : Nat :=
  if (∑ i in Finset.range d.length, d.getD i 0 * (cnpjWeightsSpec d.length).getD i 0) % 11 < 2
  then 0
  else 11 - (∑ i in Finset.range d.length, d.getD i 0 * (cnpjWeightsSpec d.length).getD i 0) % 11

/-- Spec rendering of the concrete C8 scenario: the first CPF verifier via
the explicit weight vector `[9,8,7,6,5,4,3,2,1]`, i.e. weight `9 - i` at
position `i`, remainder `(sum * 10) mod 11`, with remainder `10` mapped
to `0`. -/
def cpfVerifierW9Spec (d : List Nat) : Nat :=
  if (∑ i in Finset.range 9, d.getD i 0 * (9 - i)) * 10 % 11 = 10 then 0
  else (∑ i in Finset.range 9, d.getD i 0 * (9 - i)) * 10 % 11

/-- A verifier request: a document kind and a digit sequence. -/
inductive DocumentKind where
  | cpf
  | cnpj
deriving DecidableEq, Repr

/-- Dispatches a request to the corresponding verifier calculation, as the
spec's `computeVerifier(digits, kind)`. -/
def computeVerifier : DocumentKind × List Nat → Option Nat
  | (DocumentKind.cpf, d) => calculateCpfVerifier d
  | (DocumentKind.cnpj, d) => calculateCnpjVerifier d

/-- A sequence of verifier calls, processed in order.  The source helpers
keep no state between calls (the CNPJ weight array is a fresh local per
call), so a call sequence is just the list of independent results. -/
def runCalls (reqs : List (DocumentKind × List Nat)) : List (Option Nat) :=
  reqs.map computeVerifier

-- Support lemmas shared by the claim theorems.

/-- When the weight table covers every digit position, the indexed reduce
succeeds and computes the positional weighted sum. -/
theorem weightedSum_eq_sum :
    ∀ (ds ws : List Nat) (acc : Nat), ds.length ≤ ws.length →
      weightedSum ds ws acc =
        some (acc + ∑ i in Finset.range ds.length, ds.getD i 0 * ws.getD i 0) := by
  intro ds
  induction ds with
  | nil => intro ws acc _; simp [weightedSum]
  | cons d ds ih =>
    intro ws acc h
    cases ws with
    | nil => simp at h
    | cons w ws =>
      simp only [List.length_cons, Nat.succ_le_succ_iff] at h
      rw [weightedSum, ih ws (acc + d * w) h]
      congr 1
      rw [List.length_cons, Finset.sum_range_succ']
      simp only [List.getD_cons_succ, List.getD_cons_zero]
      ring

/-- When the digits outrun the weight table, the indexed reduce reads an
undefined weight and fails. -/
theorem weightedSum_none :
    ∀ (ds ws : List Nat) (acc : Nat), ws.length < ds.length →
      weightedSum ds ws acc = none := by
  intro ds
  induction ds with
  | nil => intro ws acc h; simp at h
  | cons d ds ih =>
    intro ws acc h
    cases ws with
    | nil => rfl
    | cons w ws =>
      simp only [List.length_cons, Nat.succ_lt_succ_iff] at h
      rw [weightedSum, ih ws (acc + d * w) h]

/-- The CPF weight array always has one weight per digit position. -/
theorem cpfWeights_length (L : Nat) : (cpfWeights L).length = L := by
  simp [cpfWeights]

/-- The CPF weight at an in-bounds position `i` is `L + 1 - i`. -/
theorem cpfWeights_getD (L i : Nat) (h : i < L) :
    (cpfWeights L).getD i 0 = L + 1 - i := by
  simp [cpfWeights, List.getD_eq_getElem?_getD, List.getElem?_map, List.getElem?_range, h]

/-- The code's CPF verifier agrees with the spec's CPF rule on every input
(the weight array is rebuilt from the input length, so no length
precondition is needed for agreement). -/
theorem calculateCpfVerifier_eq_spec (d : List Nat) :
    calculateCpfVerifier d = some (cpfVerifierSpec d) := by
  rw [calculateCpfVerifier,
    weightedSum_eq_sum d (cpfWeights d.length) 0 (by rw [cpfWeights_length]),
    Option.map_some']
  have hsum : ∑ i in Finset.range d.length, d.getD i 0 * (cpfWeights d.length).getD i 0 =
      ∑ i in Finset.range d.length, d.getD i 0 * (d.length + 1 - i) := by
    refine Finset.sum_congr rfl (fun i hi => ?_)
    rw [cpfWeights_getD d.length i (Finset.mem_range.mp hi)]
  rw [Nat.zero_add, hsum, cpfVerifierSpec]

/-- The code's CNPJ weight table and the spec's are the same list. -/
theorem cnpjWeights_eq_spec (L : Nat) : cnpjWeights L = cnpjWeightsSpec L := rfl

/-- The CNPJ weight table has 13 entries for a length-13 input and 12
entries otherwise. -/
theorem cnpjWeights_length (L : Nat) :
    (cnpjWeights L).length = if L = 13 then 13 else 12 := by
  rw [cnpjWeights]
  split <;> rfl

/-- On inputs of length at most 13 the code's CNPJ verifier agrees with the
spec's CNPJ rule (in particular on the staged lengths 12 and 13). -/
theorem calculateCnpjVerifier_eq_spec (d : List Nat) (h : d.length ≤ 13) :
    calculateCnpjVerifier d = some (cnpjVerifierSpec d) := by
  have hlen : d.length ≤ (cnpjWeights d.length).length := by
    rw [cnpjWeights_length]
    split <;> omega
  rw [calculateCnpjVerifier, weightedSum_eq_sum d _ 0 hlen, Option.map_some']
  rw [Nat.zero_add, cnpjVerifierSpec, cnpjWeights_eq_spec]

/-- The spec's CPF rule produces a digit in `[0,9]`. -/
theorem cpfVerifierSpec_le_nine (d : List Nat) : cpfVerifierSpec d ≤ 9 := by
  rw [cpfVerifierSpec]
  have h : (∑ i in Finset.range d.length, d.getD i 0 * (d.length + 1 - i)) * 10 % 11 < 11 :=
    Nat.mod_lt _ (by omega)
  split <;> omega

/-- The spec's CNPJ rule produces a digit in `[0,9]`. -/
theorem cnpjVerifierSpec_le_nine (d : List Nat) : cnpjVerifierSpec d ≤ 9 := by
  rw [cnpjVerifierSpec]
  have h : (∑ i in Finset.range d.length,
      d.getD i 0 * (cnpjWeightsSpec d.length).getD i 0) % 11 < 11 :=
    Nat.mod_lt _ (by omega)
  split <;> omega

/-- A digit in `[0,9]` renders as a decimal digit character. -/
theorem isDigit_digitToChar (d : Nat) (h : d ≤ 9) : (digitToChar d).isDigit = true := by
  interval_cases d <;> decide

/-- Rendering a digit in `[0,9]` and decoding the character gives the digit
back. -/
theorem charToDigit_digitToChar (d : Nat) (h : d ≤ 9) : charToDigit (digitToChar d) = d := by
  interval_cases d <;> decide

/-- Stripping punctuation from a CPF-formatted list of digit characters
recovers exactly the digit characters. -/
theorem stripPunct_formatCpf (l : List Char) (h : ∀ c ∈ l, c.isDigit = true) :
    stripPunct (formatCpf l) = l := by
  have htake : ∀ n m : Nat, (List.filter (fun c => c.isDigit) ((l.drop n).take m)) =
      (l.drop n).take m := by
    intro n m
    refine List.filter_eq_self.mpr (fun c hc => ?_)
    exact h c (List.drop_subset n l (List.take_subset m (l.drop n) hc))
  have hdrop : ∀ n : Nat, (List.filter (fun c => c.isDigit) (l.drop n)) = l.drop n := by
    intro n
    refine List.filter_eq_self.mpr (fun c hc => ?_)
    exact h c (List.drop_subset n l hc)
  have h0 : (List.filter (fun c => c.isDigit) (l.take 3)) = l.take 3 := by
    refine List.filter_eq_self.mpr (fun c hc => ?_)
    exact h c (List.take_subset 3 l hc)
  have hdot : ('.').isDigit = false := rfl
  have hdash : ('-').isDigit = false := rfl
  rw [stripPunct, formatCpf]
  simp only [List.filter_append, List.filter_cons, hdot, hdash, Bool.false_eq_true,
    if_false, htake, hdrop, h0]
  have h6 : l.take 3 ++ (l.drop 3).take 3 = l.take 6 := (List.take_add l 3 3).symm
  have h9 : l.take 6 ++ (l.drop 6).take 3 = l.take 9 := (List.take_add l 6 3).symm
  calc l.take 3 ++ ((l.drop 3).take 3 ++ ((l.drop 6).take 3 ++ l.drop 9))
      = (l.take 3 ++ (l.drop 3).take 3) ++ ((l.drop 6).take 3 ++ l.drop 9) := by
        rw [List.append_assoc]
    _ = (l.take 6 ++ (l.drop 6).take 3) ++ l.drop 9 := by rw [h6, List.append_assoc]
    _ = l := by rw [h9, List.take_append_drop]

/-- Stripping punctuation from a CNPJ-formatted list of digit characters
recovers exactly the digit characters. -/
theorem stripPunct_formatCnpj (l : List Char) (h : ∀ c ∈ l, c.isDigit = true) :
    stripPunct (formatCnpj l) = l := by
  have htake : ∀ n m : Nat, (List.filter (fun c => c.isDigit) ((l.drop n).take m)) =
      (l.drop n).take m := by
    intro n m
    refine List.filter_eq_self.mpr (fun c hc => ?_)
    exact h c (List.drop_subset n l (List.take_subset m (l.drop n) hc))
  have hdrop : ∀ n : Nat, (List.filter (fun c => c.isDigit) (l.drop n)) = l.drop n := by
    intro n
    refine List.filter_eq_self.mpr (fun c hc => ?_)
    exact h c (List.drop_subset n l hc)
  have h0 : (List.filter (fun c => c.isDigit) (l.take 2)) = l.take 2 := by
    refine List.filter_eq_self.mpr (fun c hc => ?_)
    exact h c (List.take_subset 2 l hc)
  have hdot : ('.').isDigit = false := rfl
  have hdash : ('-').isDigit = false := rfl
  have hslash : ('/').isDigit = false := rfl
  rw [stripPunct, formatCnpj]
  simp only [List.filter_append, List.filter_cons, hdot, hdash, hslash, Bool.false_eq_true,
    if_false, htake, hdrop, h0]
  have h5 : l.take 2 ++ (l.drop 2).take 3 = l.take 5 := (List.take_add l 2 3).symm
  have h8 : l.take 5 ++ (l.drop 5).take 3 = l.take 8 := (List.take_add l 5 3).symm
  have h12 : l.take 8 ++ (l.drop 8).take 4 = l.take 12 := (List.take_add l 8 4).symm
  calc l.take 2 ++ ((l.drop 2).take 3 ++ ((l.drop 5).take 3 ++ ((l.drop 8).take 4 ++ l.drop 12)))
      = (l.take 2 ++ (l.drop 2).take 3) ++
          ((l.drop 5).take 3 ++ ((l.drop 8).take 4 ++ l.drop 12)) := by
        rw [List.append_assoc]
    _ = (l.take 5 ++ (l.drop 5).take 3) ++ ((l.drop 8).take 4 ++ l.drop 12) := by
        rw [h5, List.append_assoc]
    _ = (l.take 8 ++ (l.drop 8).take 4) ++ l.drop 12 := by rw [h8, List.append_assoc]
    _ = l := by rw [h12, List.take_append_drop]

/-- The first CPF verifier digit of a base-digit sequence, as a value. -/
def cpfV1 (base : List Nat) : Nat := cpfVerifierSpec base

/-- The second CPF verifier digit: recomputed over base + first verifier. -/
def cpfV2 (base : List Nat) : Nat := cpfVerifierSpec (base ++ [cpfV1 base])

/-- The first CNPJ verifier digit of a base-digit sequence, as a value. -/
def cnpjV1 (base : List Nat) : Nat := cnpjVerifierSpec base

/-- The second CNPJ verifier digit: recomputed over base + first verifier. -/
def cnpjV2 (base : List Nat) : Nat := cnpjVerifierSpec (base ++ [cnpjV1 base])

/-- The CPF pipeline always succeeds and formats base + the two verifier
digits. -/
theorem handleGenerateCpf_eq (base : List Nat) :
    handleGenerateCpf base =
      some (formatCpf ((base ++ [cpfV1 base, cpfV2 base]).map digitToChar)) := by
  rw [handleGenerateCpf, calculateCpfVerifier_eq_spec base]
  simp only [Option.some_bind]
  rw [calculateCpfVerifier_eq_spec (base ++ [cpfVerifierSpec base]), Option.map_some']
  rfl

/-- On a 12-digit base the CNPJ pipeline always succeeds and formats base
+ the two verifier digits. -/
theorem handleGenerateCnpj_eq (base : List Nat) (hl : base.length = 12) :
    handleGenerateCnpj base =
      some (formatCnpj ((base ++ [cnpjV1 base, cnpjV2 base]).map digitToChar)) := by
  rw [handleGenerateCnpj, calculateCnpjVerifier_eq_spec base (by omega)]
  simp only [Option.some_bind]
  rw [calculateCnpjVerifier_eq_spec (base ++ [cnpjVerifierSpec base]) (by simp [hl]),
    Option.map_some']
  rfl

/-- Every character of the joined digit string is a decimal digit. -/
theorem mem_map_digitToChar_isDigit (full : List Nat) (h : ∀ x ∈ full, x ≤ 9) :
    ∀ c ∈ full.map digitToChar, c.isDigit = true := by
  intro c hc
  obtain ⟨d, hd, rfl⟩ := List.mem_map.mp hc
  exact isDigit_digitToChar d (h d hd)

/-- Decoding the joined digit string gives the digits back. -/
theorem map_charToDigit_map_digitToChar (full : List Nat) (h : ∀ x ∈ full, x ≤ 9) :
    (full.map digitToChar).map charToDigit = full := by
  rw [List.map_map]
  have := List.map_congr_left (l := full) (f := charToDigit ∘ digitToChar) (g := id)
    (fun d hd => charToDigit_digitToChar d (h d hd))
  rw [this, List.map_id]

/-- `getD` past an initial segment reads from the tail. -/
theorem getD_append_offset (xs ys : List Nat) (k : Nat) :
    (xs ++ ys).getD (xs.length + k) 0 = ys.getD k 0 := by
  rw [List.getD_append_right _ _ _ _ (Nat.le_add_right _ _)]
  congr 1
  omega

/-- C3: for every CPF produced by the pipeline from 9 base digits in
`[0,9]`, stripping the punctuation yields exactly 11 digits, and
recomputing the verifiers from the first 9 digits by the CPF rule
reproduces digits 10 and 11 of the stripped string. -/
theorem cpf_pipeline_roundtrip (base : List Nat) (hl : base.length = 9)
    (hd : ∀ x ∈ base, x ≤ 9) :
    ∃ s, handleGenerateCpf base = some s ∧
      (stripPunct s).length = 11 ∧
      calculateCpfVerifier (((stripPunct s).map charToDigit).take 9) =
        some (((stripPunct s).map charToDigit).getD 9 0) ∧
      calculateCpfVerifier (((stripPunct s).map charToDigit).take 10) =
        some (((stripPunct s).map charToDigit).getD 10 0) := by
  have hv1 : cpfV1 base ≤ 9 := cpfVerifierSpec_le_nine base
  have hv2 : cpfV2 base ≤ 9 := cpfVerifierSpec_le_nine _
  have hfull : ∀ x ∈ base ++ [cpfV1 base, cpfV2 base], x ≤ 9 := by
    intro x hx
    rcases List.mem_append.mp hx with hx | hx
    · exact hd x hx
    · simp only [List.mem_cons, List.not_mem_nil, or_false] at hx
      rcases hx with rfl | rfl
      · exact hv1
      · exact hv2
  refine ⟨formatCpf ((base ++ [cpfV1 base, cpfV2 base]).map digitToChar),
    handleGenerateCpf_eq base, ?_⟩
  rw [stripPunct_formatCpf _ (mem_map_digitToChar_isDigit _ hfull),
    map_charToDigit_map_digitToChar _ hfull]
  refine ⟨by simp [hl], ?_, ?_⟩
  · have htake : (base ++ [cpfV1 base, cpfV2 base]).take 9 = base := by
      rw [← hl]; exact List.take_left base _
    have hget : (base ++ [cpfV1 base, cpfV2 base]).getD 9 0 = cpfV1 base := by
      have := getD_append_offset base [cpfV1 base, cpfV2 base] 0
      rw [hl] at this
      simpa using this
    rw [htake, hget, calculateCpfVerifier_eq_spec]
    rfl
  · have hassoc : base ++ [cpfV1 base, cpfV2 base] = (base ++ [cpfV1 base]) ++ [cpfV2 base] := by
      simp
    have hlen10 : (base ++ [cpfV1 base]).length = 10 := by simp [hl]
    have htake : (base ++ [cpfV1 base, cpfV2 base]).take 10 = base ++ [cpfV1 base] := by
      rw [hassoc, ← hlen10]; exact List.take_left _ _
    have hget : (base ++ [cpfV1 base, cpfV2 base]).getD 10 0 = cpfV2 base := by
      have := getD_append_offset (base ++ [cpfV1 base]) [cpfV2 base] 0
      rw [hlen10] at this
      rw [hassoc]
      simpa using this
    rw [htake, hget, calculateCpfVerifier_eq_spec]
    rfl

/-- C4: for every CNPJ produced by the pipeline from 12 base digits in
`[0,9]`, stripping the punctuation yields exactly 14 digits, and
recomputing the verifiers from the first 12 digits by the CNPJ rule
reproduces digits 13 and 14 of the stripped string. -/
theorem cnpj_pipeline_roundtrip (base : List Nat) (hl : base.length = 12)
    (hd : ∀ x ∈ base, x ≤ 9) :
    ∃ s, handleGenerateCnpj base = some s ∧
      (stripPunct s).length = 14 ∧
      calculateCnpjVerifier (((stripPunct s).map charToDigit).take 12) =
        some (((stripPunct s).map charToDigit).getD 12 0) ∧
      calculateCnpjVerifier (((stripPunct s).map charToDigit).take 13) =
        some (((stripPunct s).map charToDigit).getD 13 0) := by
  have hv1 : cnpjV1 base ≤ 9 := cnpjVerifierSpec_le_nine base
  have hv2 : cnpjV2 base ≤ 9 := cnpjVerifierSpec_le_nine _
  have hfull : ∀ x ∈ base ++ [cnpjV1 base, cnpjV2 base], x ≤ 9 := by
    intro x hx
    rcases List.mem_append.mp hx with hx | hx
    · exact hd x hx
    · simp only [List.mem_cons, List.not_mem_nil, or_false] at hx
      rcases hx with rfl | rfl
      · exact hv1
      · exact hv2
  refine ⟨formatCnpj ((base ++ [cnpjV1 base, cnpjV2 base]).map digitToChar),
    handleGenerateCnpj_eq base hl, ?_⟩
  rw [stripPunct_formatCnpj _ (mem_map_digitToChar_isDigit _ hfull),
    map_charToDigit_map_digitToChar _ hfull]
  refine ⟨by simp [hl], ?_, ?_⟩
  · have htake : (base ++ [cnpjV1 base, cnpjV2 base]).take 12 = base := by
      rw [← hl]; exact List.take_left base _
    have hget : (base ++ [cnpjV1 base, cnpjV2 base]).getD 12 0 = cnpjV1 base := by
      have := getD_append_offset base [cnpjV1 base, cnpjV2 base] 0
      rw [hl] at this
      simpa using this
    rw [htake, hget, calculateCnpjVerifier_eq_spec base (by omega)]
    rfl
  · have hassoc : base ++ [cnpjV1 base, cnpjV2 base] =
        (base ++ [cnpjV1 base]) ++ [cnpjV2 base] := by simp
    have hlen13 : (base ++ [cnpjV1 base]).length = 13 := by simp [hl]
    have htake : (base ++ [cnpjV1 base, cnpjV2 base]).take 13 = base ++ [cnpjV1 base] := by
      rw [hassoc, ← hlen13]; exact List.take_left _ _
    have hget : (base ++ [cnpjV1 base, cnpjV2 base]).getD 13 0 = cnpjV2 base := by
      have := getD_append_offset (base ++ [cnpjV1 base]) [cnpjV2 base] 0
      rw [hlen13] at this
      rw [hassoc]
      simpa using this
    rw [htake, hget, calculateCnpjVerifier_eq_spec _ (by simp [hl])]
    rfl

/-- Whether a string matches a fixed template character by character:
`'D'` positions require a decimal digit, all other positions require the
template's own punctuation character. -/
def matchesTemplate : List Char → List Char → Bool
  | [], [] => true
  | t :: ts, c :: cs => (if t = 'D' then c.isDigit else c == t) && matchesTemplate ts cs
  | _, _ => false

/-- The CPF output template `DDD.DDD.DDD-DD`. -/
def cpfTemplate : List Char := "DDD.DDD.DDD-DD".data

/-- The CNPJ output template `DD.DDD.DDD/DDDD-DD`. -/
def cnpjTemplate : List Char := "DD.DDD.DDD/DDDD-DD".data

/-- A run of `n` digit characters matches `n` template `'D'`s, and the
match continues on the rests. -/
theorem matchesTemplate_digits (n : Nat) :
    ∀ (cs : List Char), cs.length = n → (∀ c ∈ cs, c.isDigit = true) →
      ∀ ts rest, matchesTemplate ts rest = true →
        matchesTemplate (List.replicate n 'D' ++ ts) (cs ++ rest) = true := by
  induction n with
  | zero =>
    intro cs hlen _ ts rest h
    rw [List.eq_nil_of_length_eq_zero hlen]
    simpa using h
  | succ n ih =>
    intro cs hlen hdig ts rest h
    cases cs with
    | nil => simp at hlen
    | cons c cs =>
      rw [List.replicate_succ, List.cons_append, List.cons_append, matchesTemplate]
      have hc : c.isDigit = true := hdig c (List.mem_cons_self c cs)
      have hrec := ih cs (by simpa using hlen) (fun x hx => hdig x (List.mem_cons_of_mem c hx))
        ts rest h
      simp [hc, hrec]

/-- A punctuation position matches its own character, and the match
continues on the rests. -/
theorem matchesTemplate_punct (p : Char) (hp : ¬ p = 'D') (ts rest : List Char)
    (h : matchesTemplate ts rest = true) :
    matchesTemplate (p :: ts) (p :: rest) = true := by
  rw [matchesTemplate]
  simp [hp, h]

/-- A CPF-formatted string built from 11 digit characters matches the
template `DDD.DDD.DDD-DD`. -/
theorem matchesTemplate_formatCpf (l : List Char) (hlen : l.length = 11)
    (hdig : ∀ c ∈ l, c.isDigit = true) :
    matchesTemplate cpfTemplate (formatCpf l) = true := by
  have ha : (l.take 3).length = 3 := by rw [List.length_take]; omega
  have hb : ((l.drop 3).take 3).length = 3 := by
    rw [List.length_take, List.length_drop]; omega
  have hc : ((l.drop 6).take 3).length = 3 := by
    rw [List.length_take, List.length_drop]; omega
  have he : (l.drop 9).length = 2 := by rw [List.length_drop]; omega
  have hta : ∀ c ∈ l.take 3, c.isDigit = true :=
    fun c hx => hdig c (List.take_subset _ _ hx)
  have htb : ∀ c ∈ (l.drop 3).take 3, c.isDigit = true :=
    fun c hx => hdig c (List.drop_subset _ _ (List.take_subset _ _ hx))
  have htc : ∀ c ∈ (l.drop 6).take 3, c.isDigit = true :=
    fun c hx => hdig c (List.drop_subset _ _ (List.take_subset _ _ hx))
  have hte : ∀ c ∈ l.drop 9, c.isDigit = true :=
    fun c hx => hdig c (List.drop_subset _ _ hx)
  have hT : cpfTemplate = List.replicate 3 'D' ++ '.' :: (List.replicate 3 'D' ++
      '.' :: (List.replicate 3 'D' ++ '-' :: (List.replicate 2 'D' ++ []))) := by decide
  have htail : (l.drop 9 : List Char) = l.drop 9 ++ [] := by simp
  rw [formatCpf, hT, htail]
  refine matchesTemplate_digits 3 (l.take 3) ha hta _ _ ?_
  refine matchesTemplate_punct '.' (by decide) _ _ ?_
  refine matchesTemplate_digits 3 ((l.drop 3).take 3) hb htb _ _ ?_
  refine matchesTemplate_punct '.' (by decide) _ _ ?_
  refine matchesTemplate_digits 3 ((l.drop 6).take 3) hc htc _ _ ?_
  refine matchesTemplate_punct '-' (by decide) _ _ ?_
  exact matchesTemplate_digits 2 (l.drop 9) he hte [] [] rfl

/-- A CNPJ-formatted string built from 14 digit characters matches the
template `DD.DDD.DDD/DDDD-DD`. -/
theorem matchesTemplate_formatCnpj (l : List Char) (hlen : l.length = 14)
    (hdig : ∀ c ∈ l, c.isDigit = true) :
    matchesTemplate cnpjTemplate (formatCnpj l) = true := by
  have ha : (l.take 2).length = 2 := by rw [List.length_take]; omega
  have hb : ((l.drop 2).take 3).length = 3 := by
    rw [List.length_take, List.length_drop]; omega
  have hc : ((l.drop 5).take 3).length = 3 := by
    rw [List.length_take, List.length_drop]; omega
  have hd4 : ((l.drop 8).take 4).length = 4 := by
    rw [List.length_take, List.length_drop]; omega
  have he : (l.drop 12).length = 2 := by rw [List.length_drop]; omega
  have hta : ∀ c ∈ l.take 2, c.isDigit = true :=
    fun c hx => hdig c (List.take_subset _ _ hx)
  have htb : ∀ c ∈ (l.drop 2).take 3, c.isDigit = true :=
    fun c hx => hdig c (List.drop_subset _ _ (List.take_subset _ _ hx))
  have htc : ∀ c ∈ (l.drop 5).take 3, c.isDigit = true :=
    fun c hx => hdig c (List.drop_subset _ _ (List.take_subset _ _ hx))
  have htd : ∀ c ∈ (l.drop 8).take 4, c.isDigit = true :=
    fun c hx => hdig c (List.drop_subset _ _ (List.take_subset _ _ hx))
  have hte : ∀ c ∈ l.drop 12, c.isDigit = true :=
    fun c hx => hdig c (List.drop_subset _ _ hx)
  have hT : cnpjTemplate = List.replicate 2 'D' ++ '.' :: (List.replicate 3 'D' ++
      '.' :: (List.replicate 3 'D' ++ '/' :: (List.replicate 4 'D' ++
      '-' :: (List.replicate 2 'D' ++ [])))) := by decide
  have htail : (l.drop 12 : List Char) = l.drop 12 ++ [] := by simp
  rw [formatCnpj, hT, htail]
  refine matchesTemplate_digits 2 (l.take 2) ha hta _ _ ?_
  refine matchesTemplate_punct '.' (by decide) _ _ ?_
  refine matchesTemplate_digits 3 ((l.drop 2).take 3) hb htb _ _ ?_
  refine matchesTemplate_punct '.' (by decide) _ _ ?_
  refine matchesTemplate_digits 3 ((l.drop 5).take 3) hc htc _ _ ?_
  refine matchesTemplate_punct '/' (by decide) _ _ ?_
  refine matchesTemplate_digits 4 ((l.drop 8).take 4) hd4 htd _ _ ?_
  refine matchesTemplate_punct '-' (by decide) _ _ ?_
  exact matchesTemplate_digits 2 (l.drop 12) he hte [] [] rfl

/-- A CPF-formatted 11-character string has 14 characters. -/
theorem length_formatCpf (l : List Char) (hlen : l.length = 11) :
    (formatCpf l).length = 14 := by
  simp [formatCpf, List.length_take, List.length_drop, hlen]

/-- A CNPJ-formatted 14-character string has 18 characters. -/
theorem length_formatCnpj (l : List Char) (hlen : l.length = 14) :
    (formatCnpj l).length = 18 := by
  simp [formatCnpj, List.length_take, List.length_drop, hlen]

-- Claim theorems.

/-- C1: for every digit sequence of length 9 or 10, the CPF verifier
returns the value given by the spec's rule — weight position `i` by
`L + 1 - i`, `remainder = (sum * 10) mod 11`, result `0` if the remainder
is `10`, else the remainder. -/
theorem claim_cpf_verifier_rule (d : List Nat) (h : d.length = 9 ∨ d.length = 10) :
    calculateCpfVerifier d = some (cpfVerifierSpec d) :=
  calculateCpfVerifier_eq_spec d

/-- Witness for C1 at a concrete length-9 input. -/
theorem claim_cpf_verifier_rule_witness :
    (List.replicate 9 5).length = 9 ∧
      calculateCpfVerifier (List.replicate 9 5) =
        some (cpfVerifierSpec (List.replicate 9 5)) :=
  ⟨by decide, claim_cpf_verifier_rule (List.replicate 9 5) (Or.inl (by decide))⟩

/-- C2: for every digit sequence of length 12 or 13, the CNPJ verifier
returns the value given by the spec's rule — the fixed base weight table
(with `6` prepended for length 13), `remainder = sum mod 11`, result `0`
if `remainder < 2`, else `11 - remainder`. -/
theorem claim_cnpj_verifier_rule (d : List Nat) (h : d.length = 12 ∨ d.length = 13) :
    calculateCnpjVerifier d = some (cnpjVerifierSpec d) :=
  calculateCnpjVerifier_eq_spec d (by rcases h with h | h <;> omega)

/-- Witness for C2 at a concrete length-12 input. -/
theorem claim_cnpj_verifier_rule_witness :
    (List.replicate 12 7).length = 12 ∧
      calculateCnpjVerifier (List.replicate 12 7) =
        some (cnpjVerifierSpec (List.replicate 12 7)) :=
  ⟨by decide, claim_cnpj_verifier_rule (List.replicate 12 7) (Or.inl (by decide))⟩

/-- Witness for C3 at a concrete 9-digit base. -/
theorem cpf_pipeline_roundtrip_witness :
    ∃ s, handleGenerateCpf [1, 2, 3, 4, 5, 6, 7, 8, 9] = some s ∧
      (stripPunct s).length = 11 ∧
      calculateCpfVerifier (((stripPunct s).map charToDigit).take 9) =
        some (((stripPunct s).map charToDigit).getD 9 0) ∧
      calculateCpfVerifier (((stripPunct s).map charToDigit).take 10) =
        some (((stripPunct s).map charToDigit).getD 10 0) :=
  cpf_pipeline_roundtrip [1, 2, 3, 4, 5, 6, 7, 8, 9] (by decide) (by decide)

/-- Witness for C4 at a concrete 12-digit base. -/
theorem cnpj_pipeline_roundtrip_witness :
    ∃ s, handleGenerateCnpj [1, 2, 3, 4, 5, 6, 7, 8, 9, 0, 1, 2] = some s ∧
      (stripPunct s).length = 14 ∧
      calculateCnpjVerifier (((stripPunct s).map charToDigit).take 12) =
        some (((stripPunct s).map charToDigit).getD 12 0) ∧
      calculateCnpjVerifier (((stripPunct s).map charToDigit).take 13) =
        some (((stripPunct s).map charToDigit).getD 13 0) :=
  cnpj_pipeline_roundtrip [1, 2, 3, 4, 5, 6, 7, 8, 9, 0, 1, 2] (by decide) (by decide)

/-- C5: on correctly-staged digit sequences (elements in `[0,9]`, length
9 or 10 for CPF, 12 or 13 for CNPJ) the verifier computation returns a
digit in `[0,9]` — the CPF branch maps remainder `10` to `0`, and the
CNPJ branch's `11 - remainder` never exceeds `9`. -/
theorem claim_verifier_in_range (d : List Nat) (hd : ∀ x ∈ d, x ≤ 9) :
    (d.length = 9 ∨ d.length = 10 →
      ∃ r, calculateCpfVerifier d = some r ∧ r ≤ 9) ∧
    (d.length = 12 ∨ d.length = 13 →
      ∃ r, calculateCnpjVerifier d = some r ∧ r ≤ 9) := by
  constructor
  · intro _
    exact ⟨cpfVerifierSpec d, calculateCpfVerifier_eq_spec d, cpfVerifierSpec_le_nine d⟩
  · intro h
    exact ⟨cnpjVerifierSpec d,
      calculateCnpjVerifier_eq_spec d (by rcases h with h | h <;> omega),
      cnpjVerifierSpec_le_nine d⟩

/-- Witness for C5 at concrete staged inputs of both kinds. -/
theorem claim_verifier_in_range_witness :
    (∃ r, calculateCpfVerifier (List.replicate 9 8) = some r ∧ r ≤ 9) ∧
    (∃ r, calculateCnpjVerifier (List.replicate 12 8) = some r ∧ r ≤ 9) :=
  ⟨(claim_verifier_in_range (List.replicate 9 8) (by decide)).1 (Or.inl (by decide)),
    (claim_verifier_in_range (List.replicate 12 8) (by decide)).2 (Or.inl (by decide))⟩

/-- C6: every generated CPF is a 14-character string matching
`DDD.DDD.DDD-DD` and every generated CNPJ is an 18-character string
matching `DD.DDD.DDD/DDDD-DD`. -/
theorem claim_output_patterns (base9 base12 : List Nat)
    (hl9 : base9.length = 9) (hd9 : ∀ x ∈ base9, x ≤ 9)
    (hl12 : base12.length = 12) (hd12 : ∀ x ∈ base12, x ≤ 9) :
    (∃ s, handleGenerateCpf base9 = some s ∧ s.length = 14 ∧
      matchesTemplate cpfTemplate s = true) ∧
    (∃ s, handleGenerateCnpj base12 = some s ∧ s.length = 18 ∧
      matchesTemplate cnpjTemplate s = true) := by
  constructor
  · have hfull : ∀ x ∈ base9 ++ [cpfV1 base9, cpfV2 base9], x ≤ 9 := by
      intro x hx
      rcases List.mem_append.mp hx with hx | hx
      · exact hd9 x hx
      · simp only [List.mem_cons, List.not_mem_nil, or_false] at hx
        rcases hx with rfl | rfl
        · exact cpfVerifierSpec_le_nine base9
        · exact cpfVerifierSpec_le_nine _
    have hlen : ((base9 ++ [cpfV1 base9, cpfV2 base9]).map digitToChar).length = 11 := by
      simp [hl9]
    exact ⟨formatCpf ((base9 ++ [cpfV1 base9, cpfV2 base9]).map digitToChar),
      handleGenerateCpf_eq base9, length_formatCpf _ hlen,
      matchesTemplate_formatCpf _ hlen (mem_map_digitToChar_isDigit _ hfull)⟩
  · have hfull : ∀ x ∈ base12 ++ [cnpjV1 base12, cnpjV2 base12], x ≤ 9 := by
      intro x hx
      rcases List.mem_append.mp hx with hx | hx
      · exact hd12 x hx
      · simp only [List.mem_cons, List.not_mem_nil, or_false] at hx
        rcases hx with rfl | rfl
        · exact cnpjVerifierSpec_le_nine base12
        · exact cnpjVerifierSpec_le_nine _
    have hlen : ((base12 ++ [cnpjV1 base12, cnpjV2 base12]).map digitToChar).length = 14 := by
      simp [hl12]
    exact ⟨formatCnpj ((base12 ++ [cnpjV1 base12, cnpjV2 base12]).map digitToChar),
      handleGenerateCnpj_eq base12 hl12, length_formatCnpj _ hlen,
      matchesTemplate_formatCnpj _ hlen (mem_map_digitToChar_isDigit _ hfull)⟩

/-- Witness for C6 at concrete bases of both kinds. -/
theorem claim_output_patterns_witness :
    (∃ s, handleGenerateCpf [9, 8, 7, 6, 5, 4, 3, 2, 1] = some s ∧ s.length = 14 ∧
      matchesTemplate cpfTemplate s = true) ∧
    (∃ s, handleGenerateCnpj [9, 8, 7, 6, 5, 4, 3, 2, 1, 0, 9, 8] = some s ∧ s.length = 18 ∧
      matchesTemplate cnpjTemplate s = true) :=
  claim_output_patterns [9, 8, 7, 6, 5, 4, 3, 2, 1] [9, 8, 7, 6, 5, 4, 3, 2, 1, 0, 9, 8]
    (by decide) (by decide) (by decide) (by decide)

/-- C7: the all-zero base-digit sequences produce well-formed formatted
documents with both verifier digits `0` — `000.000.000-00` for CPF and
`00.000.000/0000-00` for CNPJ — not an error. -/
theorem claim_all_zero_boundary :
    calculateCpfVerifier (List.replicate 9 0) = some 0 ∧
    calculateCnpjVerifier (List.replicate 12 0) = some 0 ∧
    handleGenerateCpf (List.replicate 9 0) = some ("000.000.000-00".data) ∧
    handleGenerateCnpj (List.replicate 12 0) = some ("00.000.000/0000-00".data) := by
  decide

/-- C8: on the base digits `[1,1,1,4,4,4,4,7,7]` the CPF verifier equals
the value computed with the explicit weight vector `[9,8,7,6,5,4,3,2,1]`
(weight `9 - i` at position `i`), remainder `(sum * 10) mod 11`, remainder
`10` mapped to `0`. -/
theorem claim_cpf_concrete_weights :
    calculateCpfVerifier [1, 1, 1, 4, 4, 4, 4, 7, 7] =
      some (cpfVerifierW9Spec [1, 1, 1, 4, 4, 4, 4, 7, 7]) := by
  decide

/-- C9: the verifier computation is a pure, deterministic function of the
request: in any sequence of calls, two positions holding the identical
(kind, digits) request yield the identical result, regardless of order and
intervening calls (the length-13 CNPJ call's weight table is call-local,
so it cannot affect any other call). -/
theorem claim_verifier_pure (reqs : List (DocumentKind × List Nat)) (i j : Nat)
    (h : reqs[i]? = reqs[j]?) :
    (runCalls reqs)[i]? = (runCalls reqs)[j]? := by
  simp [runCalls, List.getElem?_map, h]

/-- Witness for C9: a CPF request repeated around an intervening length-13
CNPJ request gives the same answer both times. -/
theorem claim_verifier_pure_witness :
    (runCalls [(DocumentKind.cpf, [1, 2, 3]),
      (DocumentKind.cnpj, List.replicate 13 4),
      (DocumentKind.cpf, [1, 2, 3])])[0]? =
    (runCalls [(DocumentKind.cpf, [1, 2, 3]),
      (DocumentKind.cnpj, List.replicate 13 4),
      (DocumentKind.cpf, [1, 2, 3])])[2]? :=
  claim_verifier_pure _ 0 2 (by decide)

/-- C10: under the documented length precondition every CNPJ weight lookup
is in bounds (12 table entries for length 12, 13 after prepending `6` for
length 13) and the embedded sum is total; for inputs longer than 13 a
weight lookup is out of bounds and the computation fails, so the
precondition is genuinely required; the CPF verifier builds its weight
table from the input length, so it is total at every length and returns
`0` on the empty sequence. -/
theorem claim_weight_bounds :
    (∀ d : List Nat, d.length = 12 ∨ d.length = 13 →
      (cnpjWeights d.length).length = d.length ∧
        (calculateCnpjVerifier d).isSome = true) ∧
    (∀ d : List Nat, 13 < d.length → calculateCnpjVerifier d = none) ∧
    (∀ d : List Nat, (cpfWeights d.length).length = d.length ∧
      (calculateCpfVerifier d).isSome = true) ∧
    calculateCpfVerifier [] = some 0 := by
  refine ⟨?_, ?_, ?_, by decide⟩
  · intro d h
    refine ⟨?_, ?_⟩
    · rw [cnpjWeights_length]
      rcases h with h | h <;> simp [h]
    · rw [calculateCnpjVerifier_eq_spec d (by rcases h with h | h <;> omega)]
      rfl
  · intro d h
    rw [calculateCnpjVerifier, weightedSum_none]
    · rfl
    · rw [cnpjWeights_length]
      split <;> omega
  · intro d
    refine ⟨cpfWeights_length d.length, ?_⟩
    rw [calculateCpfVerifier_eq_spec d]
    rfl

/-- Witness for C10: a length-12 CNPJ input succeeds, a length-14 input
fails on an out-of-bounds weight, and a CPF input of unusual length still
succeeds. -/
theorem claim_weight_bounds_witness :
    (calculateCnpjVerifier (List.replicate 12 3)).isSome = true ∧
    calculateCnpjVerifier (List.replicate 14 3) = none ∧
    (calculateCpfVerifier (List.replicate 5 3)).isSome = true :=
  ⟨(claim_weight_bounds.1 (List.replicate 12 3) (Or.inl (by decide))).2,
    claim_weight_bounds.2.1 (List.replicate 14 3) (by decide),
    (claim_weight_bounds.2.2.1 (List.replicate 5 3)).2⟩

